import Mathlib

/-!
Verification development for the guestbook backend (src/main.py).

The Python strings are modelled as lists of characters (`List Char`).
`URL_REGEX = re.compile(r"https?://[^\s]+", re.IGNORECASE)` together with
`URL_REGEX.sub("[link removed]", message)` is modelled by an explicit
left-to-right scanner (`urlSub`): at each position the scanner attempts the
leftmost match of the pattern (literal `http`, an optional `s`, literal
`://`, then a greedy non-empty run of non-whitespace characters); on a match
it emits the placeholder and resumes after the matched text, otherwise it
emits the character and moves one position right.  This is exactly the
semantics of `re.sub` for this pattern (the pattern cannot match the empty
string, and the only backtracking point, the optional `s`, can never recover
a failed match because the fallback then requires the same character to be
a colon).

Whitespace (`\s` of a Python `str` pattern, and `str.strip()`) is the
Unicode whitespace set, written out explicitly in `pyIsSpace`.
Case-insensitivity folds ASCII upper-case letters and the one non-ASCII
character that case-folds onto a letter of the pattern (the long s U+017F,
which folds to `s`).

The two route handlers `list_guestbook` and `add_guestbook` and the
diagnostic handler `test_database` are modelled as total functions over an
explicit description of the collaborator's behaviour (the outcome of
`get_documents` / `create_document`, the import of the database module, the
database handle, the collection enumeration, and the two environment
variables); a Python exception raised by a collaborator call is an
`Except.error` carrying `str(e)`.
-/

/-- Python's whitespace test for `str` (the set matched by the regex class
`\s` and stripped by `str.strip()`): ASCII whitespace, the file/group/record
/unit separators, NEL, NBSP and the Unicode space separators. -/
def pyIsSpace (c : Char) : Bool :=
  decide ((9 ≤ c.toNat ∧ c.toNat ≤ 13) ∨ (28 ≤ c.toNat ∧ c.toNat ≤ 32) ∨
    c.toNat = 0x85 ∨ c.toNat = 0xa0 ∨ c.toNat = 0x1680 ∨
    (0x2000 ≤ c.toNat ∧ c.toNat ≤ 0x200a) ∨ c.toNat = 0x2028 ∨
    c.toNat = 0x2029 ∨ c.toNat = 0x202f ∨ c.toNat = 0x205f ∨ c.toNat = 0x3000)

/-- Case folding as `re.IGNORECASE` applies it to the letters of the pattern
`https?://`: ASCII upper-case letters fold to lower case, and U+017F (the
long s) folds to `s`.  Every other character is unchanged. -/
def lowerChar (c : Char) : Char :=
  if 65 ≤ c.toNat ∧ c.toNat ≤ 90 then Char.ofNat (c.toNat + 32)
  else if c.toNat = 0x17f then 's' else c

/-- Python `str.strip()`: drop leading and trailing whitespace. -/
def pyStrip (l : List Char) : List Char :=
  ((l.dropWhile pyIsSpace).reverse.dropWhile pyIsSpace).reverse

/-- Python `str.strip()` on a `String`. -/
def pyStripStr (s : String) : String :=
  String.mk (pyStrip s.data)

/-- The replacement text of `URL_REGEX.sub("[link removed]", message)`. -/
def placeholder : List Char :=
  ['[', 'l', 'i', 'n', 'k', ' ', 'r', 'e', 'm', 'o', 'v', 'e', 'd', ']']

/-- The part of the pattern after `http` or `https`: the literal `://`
followed by the greedy `[^\s]+`.  On success it returns the text remaining
after the match (the matched text itself extends to the next whitespace
character or to the end of the input). -/
def matchSchemeTail : List Char → Option (List Char)
  | a :: b :: c :: r =>
    if a = ':' ∧ b = '/' ∧ c = '/' then
      match r with
      | [] => none
      | d :: r2 => if pyIsSpace d then none else some (r2.dropWhile (fun x => !pyIsSpace x))
    else none
  | _ => none

/-- One attempt of `URL_REGEX` at the head of the input: case-insensitive
`http`, then either an `s` followed by `://[^\s]+` or directly `://[^\s]+`.
Returns the input remaining after the match.  (When the fifth character is
an `s` the fallback of the optional `s?` would require that same character
to be `:`, so it never succeeds and is omitted.) -/
def matchUrlAt : List Char → Option (List Char)
  | c1 :: c2 :: c3 :: c4 :: r =>
    if lowerChar c1 = 'h' ∧ lowerChar c2 = 't' ∧ lowerChar c3 = 't' ∧ lowerChar c4 = 'p' then
      match r with
      | [] => none
      | c5 :: r2 => if lowerChar c5 = 's' then matchSchemeTail r2 else matchSchemeTail r
    else none
  | _ => none

/-- The scanning loop of `URL_REGEX.sub`.  The fuel argument only bounds the
number of steps; every step consumes at least one character, so fuel equal
to the length of the input (as supplied by `urlSub`) is always enough. -/
def urlSubGo : Nat → List Char → List Char
  | 0, l => l
  | _ + 1, [] => []
  | fuel + 1, c :: cs =>
    match matchUrlAt (c :: cs) with
    | some rest => placeholder ++ urlSubGo fuel rest
    | none => c :: urlSubGo fuel cs

/-- `URL_REGEX.sub("[link removed]", l)`: replace every match of the
pattern, scanning left to right, non-overlapping. -/
def urlSub (l : List Char) : List Char :=
  urlSubGo l.length l

/-- `URL_REGEX.sub("[link removed]", s)` on a `String`. -/
def urlSubStr (s : String) : String :=
  String.mk (urlSub s.data)

/-- Does some suffix of `l` start with a match of `URL_REGEX`?  This holds
exactly when `l` has a substring matched by the pattern, i.e. when `l`
still contains a raw `http://` or `https://` URL. -/
def hasUrlMatch : List Char → Bool
  | [] => false
  | c :: cs => (matchUrlAt (c :: cs)).isSome || hasUrlMatch cs

/-- The value stored in a document's `_id` field: either a raw object id
(as the storage collaborator assigns it) or a string. -/
inductive IdVal where
  | objId (n : Nat)
  | strv (s : String)
deriving DecidableEq, Repr

/-- Python `str(...)` on an `_id` value (the text representation of an
object id, or the string itself). -/
def idStr : IdVal → String
  | IdVal.objId n => toString n
  | IdVal.strv s => s

/-- A document of the `guestbook` collection as the storage collaborator
returns it: an optional `_id`, the stored fields, and an optional creation
timestamp (`none` models a document lacking the `created_at` field;
timestamps are modelled as natural numbers whose minimum, `datetime.min`,
is `0`). -/
structure Doc where
  _id : Option IdVal
  name : String
  message : String
  created_at : Option Nat
deriving DecidableEq, Repr

/-- The sort key of `docs.sort(key=lambda d: d.get("created_at", datetime.min), reverse=True)`:
a missing `created_at` is treated as the minimum possible timestamp. -/
def sortKey (d : Doc) : Nat :=
  d.created_at.getD 0

/-- The order `docs.sort(key=..., reverse=True)` sorts into: `a` may come
before `b` when `a`'s key is at least `b`'s key. -/
def descKey (a b : Doc) : Prop :=
  sortKey b ≤ sortKey a

instance : DecidableRel descKey := fun _ _ => Nat.decLe _ _

instance : IsTotal Doc descKey :=
  ⟨fun a b => Nat.le_total (sortKey b) (sortKey a)⟩

instance : IsTrans Doc descKey :=
  ⟨fun _ _ _ hab hbc => Nat.le_trans hbc hab⟩

/-- Python's `list.sort(key=lambda d: d.get("created_at", datetime.min), reverse=True)`:
a stable sort into non-increasing key order, modelled by insertion sort
(Python's sort is stable, and any two stable sorts produce the same output
on every input, so this is the same function). -/
def pySortDesc (docs : List Doc) : List Doc :=
  List.insertionSort descKey docs

/-- The loop `for d in docs: if "_id" in d: d["_id"] = str(d["_id"])`
applied to one document. -/
def stringifyId (d : Doc) : Doc :=
  { d with _id := d._id.map (fun v => IdVal.strv (idStr v)) }

deriving instance DecidableEq for Except

/-- An HTTP error as `HTTPException(status_code=..., detail=...)` carries it. -/
structure HttpErr where
  status : Nat
  detail : String
deriving DecidableEq, Repr

/-- The handler `list_guestbook`: `fetch` is the outcome of the call
`get_documents("guestbook", {}, limit=limit)` (an `Except.error` models a
raised exception, carrying `str(e)`).  On success the documents are sorted
by `created_at` descending (missing field = `datetime.min`) and each `_id`
present is converted to its string representation; on failure the handler
raises `HTTPException(500, str(e))`. -/
def list_guestbook (fetch : Except String (List Doc)) : Except HttpErr (List Doc) :=
  match fetch with
  | Except.error e => Except.error { status := 500, detail := e }
  | Except.ok docs => Except.ok ((pySortDesc docs).map stringifyId)

/-- What a run of the handler `add_guestbook` did: the HTTP outcome, whether
`create_document` was invoked, and with which collection name and data. -/
structure PostOutcome where
  response : Except HttpErr Doc
  createCalled : Bool
  createArgs : Option (String × String × String)
deriving DecidableEq, Repr

/-- The handler `add_guestbook`: strips `name` and `message`, rejects with a
400 if either is empty after stripping, sanitizes the message with
`URL_REGEX.sub("[link removed]", ...)`, then calls
`create_document("guestbook", {"name": name, "message": message_sanitized})`
whose outcome is `store` (an `Except.error` models a raised exception,
carrying `str(e)`, turned into `HTTPException(500, str(e))`).  On success
the handler returns the inserted id, the stripped name, the sanitized
message and the current time `now` (`datetime.now()`). -/
def add_guestbook (name message : String) (store : Except String IdVal) (now : Nat) :
    PostOutcome :=
  let n := pyStripStr name
  let m := pyStripStr message
  if n = "" ∨ m = "" then
    { response := Except.error { status := 400, detail := "Name and message are required" }
      createCalled := false
      createArgs := none }
  else
    let ms := urlSubStr m
    match store with
    | Except.ok iid =>
      { response := Except.ok { _id := some iid, name := n, message := ms, created_at := some now }
        createCalled := true
        createArgs := some ("guestbook", n, ms) }
    | Except.error e =>
      { response := Except.error { status := 500, detail := e }
        createCalled := true
        createArgs := some ("guestbook", n, ms) }

/-- The database handle of the `database` module, as the diagnostic endpoint
probes it: an optional `name` attribute (`hasattr(db, "name")`), and the
outcome of `db.list_collection_names()` (an `Except.error` models a raised
exception, carrying `str(e)`). -/
structure DbHandle where
  name : Option String
  collections : Except String (List String)

/-- The outcome of `from database import db` at the top of `test_database`:
the import can fail with `ImportError`, fail with another exception
(carrying `str(e)`), or succeed with a handle that may be `None`. -/
inductive ImportOutcome where
  | importFailed
  | otherFailed (msg : String)
  | imported (db : Option DbHandle)

/-- The world `test_database` runs against: the import outcome and whether
the environment variables `DATABASE_URL` and `DATABASE_NAME` are set. -/
structure TestEnv where
  importResult : ImportOutcome
  databaseUrlSet : Bool
  databaseNameSet : Bool

/-- The response object of `GET /test`.  The two `Option String` fields
start as Python `None` and hold `some` once assigned a string. -/
structure TestResponse where
  backend : String
  database : String
  database_url : Option String
  database_name : Option String
  connection_status : String
  collections : List String
deriving DecidableEq, Repr

/-- Python `str(e)[:50]`. -/
def strTake (s : String) (n : Nat) : String :=
  String.mk (s.data.take n)

/-- The handler `test_database`: builds the initial response, probes the
import, the handle, and the collection enumeration, absorbing every failure
into a status string, and finally overwrites `database_url` and
`database_name` from the two environment variables. -/
def test_database (env : TestEnv) : TestResponse :=
  let r : TestResponse :=
    { backend := "✅ Running", database := "❌ Not Available", database_url := none
      database_name := none, connection_status := "Not Connected", collections := [] }
  let r :=
    match env.importResult with
    | ImportOutcome.importFailed =>
      { r with database := "❌ Database module not found (run enable-database first)" }
    | ImportOutcome.otherFailed e =>
      { r with database := "❌ Error: " ++ strTake e 50 }
    | ImportOutcome.imported none =>
      { r with database := "⚠️  Available but not initialized" }
    | ImportOutcome.imported (some db) =>
      let r :=
        { r with database := "✅ Available", database_url := some "✅ Configured"
                 database_name := some (db.name.getD "✅ Connected")
                 connection_status := "Connected" }
      match db.collections with
      | Except.ok cols =>
        { r with collections := cols.take 10, database := "✅ Connected & Working" }
      | Except.error e =>
        { r with database := "⚠️  Connected but Error: " ++ strTake e 50 }
  { r with database_url := some (if env.databaseUrlSet then "✅ Set" else "❌ Not Set")
           database_name := some (if env.databaseNameSet then "✅ Set" else "❌ Not Set") }

/-! ### Shape and length facts about the matcher -/

theorem matchSchemeTail_some {l r : List Char} (h : matchSchemeTail l = some r) :
    ∃ d r2, l = ':' :: '/' :: '/' :: d :: r2 ∧ pyIsSpace d = false ∧
      r = r2.dropWhile (fun x => !pyIsSpace x) := by
  match l with
  | [] => simp [matchSchemeTail] at h
  | [_] => simp [matchSchemeTail] at h
  | [_, _] => simp [matchSchemeTail] at h
  | a :: b :: c :: r' =>
    simp only [matchSchemeTail] at h
    split at h
    case isTrue hc =>
      obtain ⟨ha, hb, hcc⟩ := hc
      subst ha; subst hb; subst hcc
      match r' with
      | [] => simp at h
      | d :: r2 =>
        split at h
        · simp at h
        · exact ⟨d, r2, rfl, by simp_all, by simp_all⟩
    case isFalse => simp at h

theorem matchUrlAt_some_shape {l r : List Char} (h : matchUrlAt l = some r) :
    ∃ c1 c2 c3 c4 rest, l = c1 :: c2 :: c3 :: c4 :: rest ∧
      lowerChar c1 = 'h' ∧ lowerChar c2 = 't' ∧ lowerChar c3 = 't' ∧ lowerChar c4 = 'p' ∧
      ((∃ c5 r2, rest = c5 :: r2 ∧ lowerChar c5 = 's' ∧ matchSchemeTail r2 = some r) ∨
        matchSchemeTail rest = some r) := by
  match l with
  | [] => simp [matchUrlAt] at h
  | [_] => simp [matchUrlAt] at h
  | [_, _] => simp [matchUrlAt] at h
  | [_, _, _] => simp [matchUrlAt] at h
  | c1 :: c2 :: c3 :: c4 :: rest =>
    simp only [matchUrlAt] at h
    split at h
    case isTrue hc =>
      obtain ⟨h1, h2, h3, h4⟩ := hc
      refine ⟨c1, c2, c3, c4, rest, rfl, h1, h2, h3, h4, ?_⟩
      match rest with
      | [] => simp at h
      | c5 :: r2 =>
        change (if lowerChar c5 = 's' then matchSchemeTail r2
          else matchSchemeTail (c5 :: r2)) = some r at h
        split at h
        case isTrue hs => exact Or.inl ⟨c5, r2, rfl, hs, h⟩
        case isFalse => exact Or.inr h
    case isFalse => simp at h

theorem matchSchemeTail_some_length {l r : List Char} (h : matchSchemeTail l = some r) :
    r.length + 4 ≤ l.length := by
  obtain ⟨d, r2, hl, _, hr⟩ := matchSchemeTail_some h
  have : r.length ≤ r2.length := hr ▸ (r2.dropWhile_sublist _).length_le
  simp [hl]; omega

theorem matchUrlAt_some_length {l r : List Char} (h : matchUrlAt l = some r) :
    r.length + 8 ≤ l.length := by
  obtain ⟨c1, c2, c3, c4, rest, hl, _, _, _, _, htail⟩ := matchUrlAt_some_shape h
  rcases htail with ⟨c5, r2, hrest, _, ht⟩ | ht
  · have := matchSchemeTail_some_length ht
    simp [hl, hrest]; omega
  · have := matchSchemeTail_some_length ht
    simp [hl]; omega

theorem matchUrlAt_some_head {l r : List Char} (h : matchUrlAt l = some r) :
    ∃ c t, l = c :: t ∧ lowerChar c = 'h' := by
  obtain ⟨c1, c2, c3, c4, rest, hl, h1, _⟩ := matchUrlAt_some_shape h
  exact ⟨c1, c2 :: c3 :: c4 :: rest, hl, h1⟩

theorem lowerChar_of_space {c : Char} (h : pyIsSpace c = true) : lowerChar c = c := by
  have h' := of_decide_eq_true h
  unfold lowerChar
  rw [if_neg (by omega), if_neg (by omega)]

theorem not_space_of_lower_h {c : Char} (h : lowerChar c = 'h') : pyIsSpace c = false := by
  by_contra hsp
  have hsp' : pyIsSpace c = true := by
    cases hx : pyIsSpace c
    · exact absurd hx hsp
    · rfl
  have hc : c = 'h' := by rw [← lowerChar_of_space hsp', h]
  rw [hc] at hsp'
  exact absurd hsp' (by decide)

/-! ### The scanning loop: fuel irrelevance and the unfolding equation -/

theorem urlSubGo_congr : ∀ (f1 f2 : Nat) (l : List Char),
    l.length ≤ f1 → l.length ≤ f2 → urlSubGo f1 l = urlSubGo f2 l := by
  intro f1
  induction f1 with
  | zero =>
    intro f2 l h1 _
    have : l = [] := by
      cases l with
      | nil => rfl
      | cons a as => simp at h1
    subst this
    cases f2 <;> rfl
  | succ g ih =>
    intro f2 l h1 h2
    cases l with
    | nil => cases f2 <;> rfl
    | cons c cs =>
      cases f2 with
      | zero => simp at h2
      | succ g2 =>
        show urlSubGo (g + 1) (c :: cs) = urlSubGo (g2 + 1) (c :: cs)
        unfold urlSubGo
        simp only [List.length_cons] at h1 h2
        cases hm : matchUrlAt (c :: cs) with
        | some rest =>
          have hlen := matchUrlAt_some_length hm
          simp only [List.length_cons] at hlen
          have hr1 : rest.length ≤ g := by omega
          have hr2 : rest.length ≤ g2 := by omega
          simp [ih g2 rest hr1 hr2]
        | none =>
          have hc1 : cs.length ≤ g := by omega
          have hc2 : cs.length ≤ g2 := by omega
          simp [ih g2 cs hc1 hc2]

theorem urlSub_nil : urlSub [] = [] := rfl

theorem urlSub_cons (c : Char) (cs : List Char) :
    urlSub (c :: cs) =
      match matchUrlAt (c :: cs) with
      | some rest => placeholder ++ urlSub rest
      | none => c :: urlSub cs := by
  show urlSubGo (cs.length + 1) (c :: cs) = _
  unfold urlSubGo
  cases hm : matchUrlAt (c :: cs) with
  | some rest =>
    have hlen := matchUrlAt_some_length hm
    have : rest.length ≤ cs.length := by simp at hlen; omega
    simp [urlSub, urlSubGo_congr cs.length rest.length rest this le_rfl]
  | none => simp [urlSub]

theorem urlSub_cons_of_none {c : Char} {cs : List Char} (h : matchUrlAt (c :: cs) = none) :
    urlSub (c :: cs) = c :: urlSub cs := by
  rw [urlSub_cons, h]

theorem urlSub_cons_of_some {c : Char} {cs rest : List Char}
    (h : matchUrlAt (c :: cs) = some rest) :
    urlSub (c :: cs) = placeholder ++ urlSub rest := by
  rw [urlSub_cons, h]

/-! ### No match can start at a character that does not fold to `h`, `t`, `p` -/

theorem matchUrlAt_none₁ {c : Char} (h : lowerChar c ≠ 'h') (t : List Char) :
    matchUrlAt (c :: t) = none := by
  match t with
  | [] => rfl
  | [_] => rfl
  | [_, _] => rfl
  | a :: b :: d :: r =>
    simp only [matchUrlAt]
    exact if_neg (fun hc => h hc.1)

theorem matchUrlAt_none₂ {c2 : Char} (h : lowerChar c2 ≠ 't') (c1 : Char) (t : List Char) :
    matchUrlAt (c1 :: c2 :: t) = none := by
  match t with
  | [] => rfl
  | [_] => rfl
  | a :: b :: r =>
    simp only [matchUrlAt]
    exact if_neg (fun hc => h hc.2.1)

theorem matchUrlAt_none₃ {c3 : Char} (h : lowerChar c3 ≠ 't') (c1 c2 : Char) (t : List Char) :
    matchUrlAt (c1 :: c2 :: c3 :: t) = none := by
  match t with
  | [] => rfl
  | a :: r =>
    simp only [matchUrlAt]
    exact if_neg (fun hc => h hc.2.2.1)

theorem matchUrlAt_none₄ {c4 : Char} (h : lowerChar c4 ≠ 'p') (c1 c2 c3 : Char) (t : List Char) :
    matchUrlAt (c1 :: c2 :: c3 :: c4 :: t) = none := by
  simp only [matchUrlAt]
  exact if_neg (fun hc => h hc.2.2.2)

theorem hasUrlMatch_append_of_no_h {p : List Char} (hp : ∀ x ∈ p, lowerChar x ≠ 'h')
    (t : List Char) : hasUrlMatch (p ++ t) = hasUrlMatch t := by
  induction p with
  | nil => rfl
  | cons x p' ih =>
    have hx : lowerChar x ≠ 'h' := hp x (by simp)
    have hp' : ∀ y ∈ p', lowerChar y ≠ 'h' := fun y hy => hp y (by simp [hy])
    show hasUrlMatch (x :: (p' ++ t)) = _
    simp only [hasUrlMatch, matchUrlAt_none₁ hx, Option.isSome_none, Bool.false_or]
    exact ih hp'

theorem placeholder_no_h : ∀ x ∈ placeholder, lowerChar x ≠ 'h' := by decide

/-! ### Structure of the scanner output: an untouched prefix, then a block -/

theorem urlSub_decomp (cs : List Char) :
    urlSub cs = cs ∨
    ∃ p q r, cs = p ++ q ∧ matchUrlAt q = some r ∧
      urlSub cs = p ++ (placeholder ++ urlSub r) := by
  induction cs with
  | nil => left; rfl
  | cons a as ih =>
    cases hm : matchUrlAt (a :: as) with
    | some r =>
      right
      exact ⟨[], a :: as, r, rfl, hm, by rw [urlSub_cons_of_some hm]; rfl⟩
    | none =>
      rcases ih with he | ⟨p, q, r, h1, h2, h3⟩
      · left; rw [urlSub_cons_of_none hm, he]
      · right
        exact ⟨a :: p, q, r, by rw [h1]; rfl, h2,
          by rw [urlSub_cons_of_none hm, h3]; rfl⟩

/-! ### The matcher looks at most nine characters ahead for success -/

theorem matchSchemeTail_none_of_cond {a b c : Char} (t : List Char)
    (h : ¬(a = ':' ∧ b = '/' ∧ c = '/')) : matchSchemeTail (a :: b :: c :: t) = none := by
  simp only [matchSchemeTail]
  exact if_neg h

theorem matchSchemeTail_cons4_space {a b c d : Char} (t : List Char) (h : pyIsSpace d = true) :
    matchSchemeTail (a :: b :: c :: d :: t) = none := by
  simp only [matchSchemeTail]
  by_cases hc : a = ':' ∧ b = '/' ∧ c = '/'
  · rw [if_pos hc]
    change (if pyIsSpace d then none
      else some (t.dropWhile fun x => !pyIsSpace x)) = none
    rw [if_pos h]
  · rw [if_neg hc]

theorem matchSchemeTail_cons4_some {a b c d : Char} (t : List Char)
    (hc : a = ':' ∧ b = '/' ∧ c = '/') (hd : pyIsSpace d = false) :
    matchSchemeTail (a :: b :: c :: d :: t) = some (t.dropWhile fun x => !pyIsSpace x) := by
  simp only [matchSchemeTail]
  rw [if_pos hc]
  change (if pyIsSpace d then none
    else some (t.dropWhile fun x => !pyIsSpace x)) = _
  rw [if_neg (by rw [hd]; exact Bool.false_ne_true)]

theorem matchSchemeTail_isSome_cons4 (a b c d : Char) (t : List Char) :
    (matchSchemeTail (a :: b :: c :: d :: t)).isSome =
      (decide (a = ':' ∧ b = '/' ∧ c = '/') && !pyIsSpace d) := by
  by_cases hc : a = ':' ∧ b = '/' ∧ c = '/'
  · cases hd : pyIsSpace d
    · rw [matchSchemeTail_cons4_some t hc hd]
      simp [hc]
    · rw [matchSchemeTail_cons4_space t hd]
      simp [hd]
  · rw [matchSchemeTail_none_of_cond (d :: t) hc]
    simp [hc]

theorem matchUrlAt_isSome_nine (c1 c2 c3 c4 c5 c6 c7 c8 c9 : Char) (t t' : List Char) :
    (matchUrlAt (c1 :: c2 :: c3 :: c4 :: c5 :: c6 :: c7 :: c8 :: c9 :: t)).isSome =
      (matchUrlAt (c1 :: c2 :: c3 :: c4 :: c5 :: c6 :: c7 :: c8 :: c9 :: t')).isSome := by
  simp only [matchUrlAt]
  by_cases hc : lowerChar c1 = 'h' ∧ lowerChar c2 = 't' ∧ lowerChar c3 = 't' ∧ lowerChar c4 = 'p'
  · rw [if_pos hc, if_pos hc]
    change (if lowerChar c5 = 's' then matchSchemeTail (c6 :: c7 :: c8 :: c9 :: t)
        else matchSchemeTail (c5 :: c6 :: c7 :: c8 :: c9 :: t)).isSome =
      (if lowerChar c5 = 's' then matchSchemeTail (c6 :: c7 :: c8 :: c9 :: t')
        else matchSchemeTail (c5 :: c6 :: c7 :: c8 :: c9 :: t')).isSome
    by_cases hs : lowerChar c5 = 's'
    · rw [if_pos hs, if_pos hs, matchSchemeTail_isSome_cons4, matchSchemeTail_isSome_cons4]
    · rw [if_neg hs, if_neg hs, matchSchemeTail_isSome_cons4, matchSchemeTail_isSome_cons4]
  · rw [if_neg hc, if_neg hc]

theorem matchUrlAt_cond4_neg {c1 c2 c3 c4 : Char} (t : List Char)
    (h : ¬(lowerChar c1 = 'h' ∧ lowerChar c2 = 't' ∧ lowerChar c3 = 't' ∧ lowerChar c4 = 'p')) :
    matchUrlAt (c1 :: c2 :: c3 :: c4 :: t) = none := by
  simp only [matchUrlAt]
  exact if_neg h

theorem matchUrlAt_eq_s {c1 c2 c3 c4 c5 : Char} (t : List Char)
    (hc : lowerChar c1 = 'h' ∧ lowerChar c2 = 't' ∧ lowerChar c3 = 't' ∧ lowerChar c4 = 'p')
    (hs : lowerChar c5 = 's') :
    matchUrlAt (c1 :: c2 :: c3 :: c4 :: c5 :: t) = matchSchemeTail t := by
  simp only [matchUrlAt]
  rw [if_pos hc]
  change (if lowerChar c5 = 's' then matchSchemeTail t else matchSchemeTail (c5 :: t)) = _
  rw [if_pos hs]

theorem matchUrlAt_eq_ns {c1 c2 c3 c4 c5 : Char} (t : List Char)
    (hc : lowerChar c1 = 'h' ∧ lowerChar c2 = 't' ∧ lowerChar c3 = 't' ∧ lowerChar c4 = 'p')
    (hs : lowerChar c5 ≠ 's') :
    matchUrlAt (c1 :: c2 :: c3 :: c4 :: c5 :: t) = matchSchemeTail (c5 :: t) := by
  simp only [matchUrlAt]
  rw [if_pos hc]
  change (if lowerChar c5 = 's' then matchSchemeTail t else matchSchemeTail (c5 :: t)) = _
  rw [if_neg hs]

theorem matchUrlAt_none_of_tails (c1 c2 c3 c4 c5 : Char) {t : List Char}
    (hA : matchSchemeTail t = none) (hB : matchSchemeTail (c5 :: t) = none) :
    matchUrlAt (c1 :: c2 :: c3 :: c4 :: c5 :: t) = none := by
  by_cases hc : lowerChar c1 = 'h' ∧ lowerChar c2 = 't' ∧ lowerChar c3 = 't' ∧ lowerChar c4 = 'p'
  · by_cases hs : lowerChar c5 = 's'
    · rw [matchUrlAt_eq_s t hc hs]; exact hA
    · rw [matchUrlAt_eq_ns t hc hs]; exact hB
  · exact matchUrlAt_cond4_neg _ hc

/-- The key preservation fact: if no match of the pattern starts at the head
of `c :: cs`, then no match starts at the head of `c :: urlSub cs` either.
Replacing later matches with the placeholder can never create a fresh match
at an earlier position, because the placeholder contains no character of the
scheme `http(s)://`, and where its leading bracket could serve as the first
token character the original input had the (non-whitespace) first letter of
a URL at that same position. -/
theorem matchUrlAt_cons_urlSub {c : Char} {cs : List Char}
    (h : matchUrlAt (c :: cs) = none) : matchUrlAt (c :: urlSub cs) = none := by
  rcases urlSub_decomp cs with he | ⟨p, q, r, hcs, hq, hsub⟩
  · rw [he]; exact h
  · obtain ⟨h0, q', hq0, hlow⟩ := matchUrlAt_some_head hq
    have hns : pyIsSpace h0 = false := not_space_of_lower_h hlow
    subst hq0
    subst hcs
    rw [hsub]
    rcases p with _ | ⟨x1, _ | ⟨x2, _ | ⟨x3, _ | ⟨x4, _ | ⟨x5, _ | ⟨x6, _ | ⟨x7, _ | ⟨x8, p'⟩⟩⟩⟩⟩⟩⟩⟩
    · simp only [placeholder, List.nil_append, List.cons_append]
      exact matchUrlAt_none₂ (by decide) c _
    · simp only [placeholder, List.nil_append, List.cons_append]
      exact matchUrlAt_none₃ (by decide) c x1 _
    · simp only [placeholder, List.nil_append, List.cons_append]
      exact matchUrlAt_none₄ (by decide) c x1 x2 _
    · simp only [placeholder, List.nil_append, List.cons_append]
      exact matchUrlAt_none_of_tails c x1 x2 x3 '['
        (matchSchemeTail_none_of_cond _ (by decide))
        (matchSchemeTail_none_of_cond _ (by decide))
    · simp only [placeholder, List.nil_append, List.cons_append]
      exact matchUrlAt_none_of_tails c x1 x2 x3 x4
        (matchSchemeTail_none_of_cond _ (by decide))
        (matchSchemeTail_none_of_cond _ (fun hx => absurd hx.2.1 (by decide)))
    · simp only [placeholder, List.nil_append, List.cons_append]
      exact matchUrlAt_none_of_tails c x1 x2 x3 x4
        (matchSchemeTail_none_of_cond _ (fun hx => absurd hx.2.1 (by decide)))
        (matchSchemeTail_none_of_cond _ (fun hx => absurd hx.2.2 (by decide)))
    · -- p = [x1, x2, x3, x4, x5, x6]: the bracket sits exactly where the
      -- first token character of an putative `http://` match would be
      simp only [placeholder, List.nil_append, List.cons_append] at h ⊢
      by_cases hcc : x4 = ':' ∧ x5 = '/' ∧ x6 = '/'
      · by_cases hc4 : lowerChar c = 'h' ∧ lowerChar x1 = 't' ∧ lowerChar x2 = 't' ∧
            lowerChar x3 = 'p'
        · exfalso
          have hs : lowerChar x4 ≠ 's' := by rw [hcc.1]; decide
          rw [matchUrlAt_eq_ns _ hc4 hs] at h
          rw [matchSchemeTail_cons4_some _ hcc hns] at h
          exact Option.some_ne_none _ h
        · exact matchUrlAt_cond4_neg _ hc4
      · exact matchUrlAt_none_of_tails c x1 x2 x3 x4
          (matchSchemeTail_none_of_cond _ (fun hx => absurd hx.2.2 (by decide)))
          (matchSchemeTail_none_of_cond _ hcc)
    · -- p = [x1, ..., x7]: the bracket sits where the first token character
      -- of a putative `https://` match (or the run after `http://` + one
      -- character) would be
      simp only [placeholder, List.nil_append, List.cons_append] at h ⊢
      by_cases hc4 : lowerChar c = 'h' ∧ lowerChar x1 = 't' ∧ lowerChar x2 = 't' ∧
          lowerChar x3 = 'p'
      · by_cases hs : lowerChar x4 = 's'
        · by_cases hcc : x5 = ':' ∧ x6 = '/' ∧ x7 = '/'
          · exfalso
            rw [matchUrlAt_eq_s _ hc4 hs] at h
            rw [matchSchemeTail_cons4_some _ hcc hns] at h
            exact Option.some_ne_none _ h
          · rw [matchUrlAt_eq_s _ hc4 hs]
            exact matchSchemeTail_none_of_cond _ hcc
        · by_cases hcc : x4 = ':' ∧ x5 = '/' ∧ x6 = '/'
          · cases hx7 : pyIsSpace x7 with
            | true =>
              rw [matchUrlAt_eq_ns _ hc4 hs]
              exact matchSchemeTail_cons4_space _ hx7
            | false =>
              exfalso
              rw [matchUrlAt_eq_ns _ hc4 hs] at h
              rw [matchSchemeTail_cons4_some _ hcc hx7] at h
              exact Option.some_ne_none _ h
          · rw [matchUrlAt_eq_ns _ hc4 hs]
            exact matchSchemeTail_none_of_cond _ hcc
      · exact matchUrlAt_cond4_neg _ hc4
    · -- p has at least eight characters: the matcher only looks at the
      -- first nine characters, which are untouched
      simp only [List.cons_append] at h ⊢
      have h9 := matchUrlAt_isSome_nine c x1 x2 x3 x4 x5 x6 x7 x8
        (p' ++ (placeholder ++ urlSub r)) (p' ++ h0 :: q')
      rw [h] at h9
      cases hg : matchUrlAt
          (c :: x1 :: x2 :: x3 :: x4 :: x5 :: x6 :: x7 :: x8 :: (p' ++ (placeholder ++ urlSub r))) with
      | none => rfl
      | some v => rw [hg] at h9; simp at h9

/-- The sanitizer's output contains no substring matching `URL_REGEX`. -/
theorem hasUrlMatch_urlSub (l : List Char) : hasUrlMatch (urlSub l) = false := by
  suffices H : ∀ n l, l.length ≤ n → hasUrlMatch (urlSub l) = false from H l.length l le_rfl
  intro n
  induction n with
  | zero =>
    intro l hl
    have : l = [] := by
      cases l with
      | nil => rfl
      | cons a as => simp at hl
    subst this
    rfl
  | succ m ih =>
    intro l hl
    cases l with
    | nil => rfl
    | cons c cs =>
      simp only [List.length_cons] at hl
      cases hm : matchUrlAt (c :: cs) with
      | some rest =>
        rw [urlSub_cons_of_some hm, hasUrlMatch_append_of_no_h placeholder_no_h]
        have hlen := matchUrlAt_some_length hm
        simp only [List.length_cons] at hlen
        exact ih rest (by omega)
      | none =>
        rw [urlSub_cons_of_none hm]
        simp only [hasUrlMatch, matchUrlAt_cons_urlSub hm, Option.isSome_none, Bool.false_or]
        exact ih cs (by omega)

/-- An input with no match anywhere is left unchanged by the sanitizer. -/
theorem urlSub_of_not_hasUrlMatch {l : List Char} (h : hasUrlMatch l = false) :
    urlSub l = l := by
  induction l with
  | nil => rfl
  | cons c cs ih =>
    simp only [hasUrlMatch, Bool.or_eq_false_iff] at h
    obtain ⟨h1, h2⟩ := h
    have hm : matchUrlAt (c :: cs) = none := by
      cases hx : matchUrlAt (c :: cs) with
      | none => rfl
      | some v => rw [hx] at h1; simp at h1
    rw [urlSub_cons_of_none hm, ih h2]

/-- The sanitizer is idempotent. -/
theorem urlSub_idem (l : List Char) : urlSub (urlSub l) = urlSub l :=
  urlSub_of_not_hasUrlMatch (hasUrlMatch_urlSub l)

/-- Every match is maximal on the right: the text remaining after a match is
empty or starts with a whitespace character, so the matched text ran to the
next whitespace or the end of the input. -/
theorem matchUrlAt_maximal {l r : List Char} (h : matchUrlAt l = some r) :
    r = [] ∨ ∃ d t, r = d :: t ∧ pyIsSpace d = true := by
  have gen : ∀ x : List Char, x.dropWhile (fun y => !pyIsSpace y) = [] ∨
      ∃ d t, x.dropWhile (fun y => !pyIsSpace y) = d :: t ∧ pyIsSpace d = true := by
    intro x
    induction x with
    | nil => left; rfl
    | cons a as ih =>
      cases ha : pyIsSpace a with
      | true =>
        right
        exact ⟨a, as, by rw [List.dropWhile_cons_of_neg (by simp [ha])], ha⟩
      | false =>
        rw [List.dropWhile_cons_of_pos (by simp [ha])]
        exact ih
  obtain ⟨c1, c2, c3, c4, rest, _, _, _, _, _, htail⟩ := matchUrlAt_some_shape h
  rcases htail with ⟨c5, r2, _, _, ht⟩ | ht
  · obtain ⟨d, r2', _, _, hr⟩ := matchSchemeTail_some ht
    rw [hr]
    exact gen r2'
  · obtain ⟨d, r2', _, _, hr⟩ := matchSchemeTail_some ht
    rw [hr]
    exact gen r2'

/-! ### Sorting facts for the list endpoint -/

theorem pySortDesc_sorted (docs : List Doc) :
    List.Pairwise (fun a b => sortKey b ≤ sortKey a) (pySortDesc docs) :=
  List.sorted_insertionSort descKey docs

theorem pySortDesc_perm (docs : List Doc) : (pySortDesc docs).Perm docs :=
  List.perm_insertionSort descKey docs

/-! ### Evaluation lemmas for the diagnostic endpoint -/

theorem test_database_connection (env : TestEnv) :
    (test_database env).connection_status =
      match env.importResult with
      | ImportOutcome.imported (some _) => "Connected"
      | _ => "Not Connected" := by
  obtain ⟨ir, us, ns⟩ := env
  cases ir with
  | importFailed => rfl
  | otherFailed e => rfl
  | imported o =>
    cases o with
    | none => rfl
    | some db =>
      obtain ⟨nm, cols⟩ := db
      cases cols with
      | ok c => rfl
      | error e => rfl

theorem test_database_collections (env : TestEnv) :
    (test_database env).collections =
      match env.importResult with
      | ImportOutcome.imported (some db) =>
        (match db.collections with
         | Except.ok cols => cols.take 10
         | Except.error _ => [])
      | _ => [] := by
  obtain ⟨ir, us, ns⟩ := env
  cases ir with
  | importFailed => rfl
  | otherFailed e => rfl
  | imported o =>
    cases o with
    | none => rfl
    | some db =>
      obtain ⟨nm, cols⟩ := db
      cases cols with
      | ok c => rfl
      | error e => rfl

/-! ## The claims -/

/-- C1: the create operation's sanitization replaces every maximal substring
matching the case-insensitive pattern `http:// or https:// followed by one
or more non-whitespace characters` with `[link removed]`, each occurrence
independently, left to right, non-overlapping (this is the structure of the
scanner `urlSub`, and each match is maximal: the text left after a match is
empty or starts with whitespace); in particular the message
`check this out https://evil.example/x and http://y.com` becomes exactly
`check this out [link removed] and [link removed]`, both through the bare
sanitizer and through the create operation. -/
theorem C1_create_sanitizes_urls :
    (urlSubStr "check this out https://evil.example/x and http://y.com" =
      "check this out [link removed] and [link removed]") ∧
    ((add_guestbook "Ann" "check this out https://evil.example/x and http://y.com"
        (Except.ok (IdVal.objId 5)) 17).response =
      Except.ok { _id := some (IdVal.objId 5), name := "Ann",
                  message := "check this out [link removed] and [link removed]",
                  created_at := some 17 }) ∧
    (∀ l r, matchUrlAt l = some r → r = [] ∨ ∃ d t, r = d :: t ∧ pyIsSpace d = true) :=
  ⟨by decide, by decide, fun _ _ h => matchUrlAt_maximal h⟩

/-- C2: a POST /guestbook whose name or message strips to the empty string
fails with HTTP 400 and never invokes `create_document`. -/
theorem C2_blank_rejected_without_create (name message : String)
    (store : Except String IdVal) (now : Nat)
    (h : pyStripStr name = "" ∨ pyStripStr message = "") :
    (add_guestbook name message store now).response =
      Except.error { status := 400, detail := "Name and message are required" } ∧
    (add_guestbook name message store now).createCalled = false := by
  simp only [add_guestbook]
  rw [if_pos h]
  exact ⟨rfl, rfl⟩

theorem C2_blank_rejected_without_create_witness :
    (pyStripStr "   " = "" ∨ pyStripStr "hello" = "") ∧
    ((add_guestbook "   " "hello" (Except.ok (IdVal.objId 1)) 0).response =
      Except.error { status := 400, detail := "Name and message are required" } ∧
     (add_guestbook "   " "hello" (Except.ok (IdVal.objId 1)) 0).createCalled = false) :=
  ⟨Or.inl (by decide),
    C2_blank_rejected_without_create "   " "hello" (Except.ok (IdVal.objId 1)) 0
      (Or.inl (by decide))⟩

/-- C3: a valid POST /guestbook whose storage call succeeds persists the
trimmed name and the sanitized message on collection `guestbook` and
returns the trimmed name, the sanitized trimmed message, and the identifier
returned by `create_document`. -/
theorem C3_valid_create_roundtrip (name message : String) (iid : IdVal) (now : Nat)
    (hn : pyStripStr name ≠ "") (hm : pyStripStr message ≠ "")
    (_hlen1 : name.length ≤ 80) (_hlen2 : message.length ≤ 500) :
    (add_guestbook name message (Except.ok iid) now).createArgs =
      some ("guestbook", pyStripStr name, urlSubStr (pyStripStr message)) ∧
    (add_guestbook name message (Except.ok iid) now).response =
      Except.ok { _id := some iid, name := pyStripStr name,
                  message := urlSubStr (pyStripStr message), created_at := some now } := by
  simp only [add_guestbook]
  rw [if_neg (by tauto)]
  exact ⟨rfl, rfl⟩

theorem C3_valid_create_roundtrip_witness :
    (add_guestbook "Bo" " hi http://a.b " (Except.ok (IdVal.objId 7)) 3).createArgs =
      some ("guestbook", pyStripStr "Bo", urlSubStr (pyStripStr " hi http://a.b ")) ∧
    (add_guestbook "Bo" " hi http://a.b " (Except.ok (IdVal.objId 7)) 3).response =
      Except.ok { _id := some (IdVal.objId 7), name := pyStripStr "Bo",
                  message := urlSubStr (pyStripStr " hi http://a.b "),
                  created_at := some 3 } :=
  C3_valid_create_roundtrip "Bo" " hi http://a.b " (IdVal.objId 7) 3
    (by decide) (by decide) (by decide) (by decide)

/-- C6: when the storage collaborator raises (`get_documents` for the list
endpoint, `create_document` for the create endpoint), the operation fails
with HTTP 500 whose detail is the text of the underlying error. -/
theorem C6_storage_failure_maps_to_500 (eList eAdd name message : String) (now : Nat) :
    list_guestbook (Except.error eList) = Except.error { status := 500, detail := eList } ∧
    ((add_guestbook name message (Except.error eAdd) now).createCalled = true →
      (add_guestbook name message (Except.error eAdd) now).response =
        Except.error { status := 500, detail := eAdd }) := by
  refine ⟨rfl, ?_⟩
  intro hc
  simp only [add_guestbook] at hc ⊢
  by_cases h : pyStripStr name = "" ∨ pyStripStr message = ""
  · rw [if_pos h] at hc
    exact absurd hc (by decide)
  · rw [if_neg h]

/-- C8: the sanitized message that the create operation stores and returns
contains no substring matching the case-insensitive URL pattern: no suffix
of it starts with `http://` or `https://` followed by a non-whitespace
character. -/
theorem C8_no_raw_url_stored_or_returned (name message : String)
    (store : Except String IdVal) (now : Nat) :
    (∀ col n m, (add_guestbook name message store now).createArgs = some (col, n, m) →
      hasUrlMatch m.data = false) ∧
    (∀ e, (add_guestbook name message store now).response = Except.ok e →
      hasUrlMatch e.message.data = false) := by
  have key : hasUrlMatch (urlSubStr (pyStripStr message)).data = false :=
    hasUrlMatch_urlSub (pyStripStr message).data
  simp only [add_guestbook]
  by_cases h : pyStripStr name = "" ∨ pyStripStr message = ""
  · rw [if_pos h]
    exact ⟨(fun col n m hc => nomatch hc), (fun e he => nomatch he)⟩
  · rw [if_neg h]
    cases store with
    | ok iid =>
      refine ⟨fun col n m hc => ?_, fun e he => ?_⟩
      · cases hc
        exact key
      · cases he
        exact key
    | error e =>
      refine ⟨fun col n m hc => ?_, fun e' he => ?_⟩
      · cases hc
        exact key
      · cases he

/-- C9: the URL sanitization is idempotent: applying the replacement twice
yields the same result as applying it once. -/
theorem C9_sanitizer_idempotent (s : String) :
    urlSubStr (urlSubStr s) = urlSubStr s := by
  show String.mk (urlSub (String.mk (urlSub s.data)).data) = String.mk (urlSub s.data)
  rw [urlSub_idem]

/-- C10: the final `database_url` and `database_name` fields of the GET /test
response depend only on whether the two environment variables are set, not
on the import outcome, the database handle or its connectivity: the closing
assignments always overwrite the per-connection values. -/
theorem C10_env_fields_independent_of_db (env1 env2 : TestEnv)
    (hu : env1.databaseUrlSet = env2.databaseUrlSet)
    (hn : env1.databaseNameSet = env2.databaseNameSet) :
    (test_database env1).database_url = (test_database env2).database_url ∧
    (test_database env1).database_name = (test_database env2).database_name := by
  have auxU : ∀ env : TestEnv, (test_database env).database_url =
      some (if env.databaseUrlSet then "✅ Set" else "❌ Not Set") := fun _ => rfl
  have auxN : ∀ env : TestEnv, (test_database env).database_name =
      some (if env.databaseNameSet then "✅ Set" else "❌ Not Set") := fun _ => rfl
  rw [auxU, auxU, auxN, auxN, hu, hn]
  exact ⟨rfl, rfl⟩

theorem C10_env_fields_independent_of_db_witness :
    (test_database { importResult := ImportOutcome.importFailed, databaseUrlSet := true
                     databaseNameSet := false }).database_url =
      (test_database { importResult := ImportOutcome.imported none, databaseUrlSet := true
                       databaseNameSet := false }).database_url ∧
    (test_database { importResult := ImportOutcome.importFailed, databaseUrlSet := true
                     databaseNameSet := false }).database_name =
      (test_database { importResult := ImportOutcome.imported none, databaseUrlSet := true
                       databaseNameSet := false }).database_name :=
  C10_env_fields_independent_of_db
    { importResult := ImportOutcome.importFailed, databaseUrlSet := true
      databaseNameSet := false }
    { importResult := ImportOutcome.imported none, databaseUrlSet := true
      databaseNameSet := false } rfl rfl

example : urlSubStr "see HTTPS://ABC.de ok" = "see [link removed] ok" := by decide

example : urlSubStr "https:// nothing" = "https:// nothing" := by decide

example : pyStripStr "  hi there\t" = "hi there" := by decide

/-- C4: GET /guestbook returns the stored documents sorted in non-increasing
order of `created_at`, a missing `created_at` being treated as the minimum
possible timestamp (`sortKey` is `d.get("created_at", datetime.min)`), so
such entries sort last; the output is a permutation of the (id-stringified)
input documents. -/
theorem C4_list_sorted_desc (docs out : List Doc)
    (h : list_guestbook (Except.ok docs) = Except.ok out) :
    List.Pairwise (fun a b => sortKey b ≤ sortKey a) out ∧
    out.Perm (docs.map stringifyId) ∧
    List.Pairwise (fun a b => a.created_at = none → sortKey b = 0) out := by
  have hout : out = (pySortDesc docs).map stringifyId := by
    simp only [list_guestbook] at h
    injection h with h'
    exact h'.symm
  subst hout
  have hkey : ∀ d, sortKey (stringifyId d) = sortKey d := fun d => rfl
  have hsorted : List.Pairwise (fun a b => sortKey b ≤ sortKey a)
      ((pySortDesc docs).map stringifyId) :=
    List.Pairwise.map _ (fun a b hab => by simpa [hkey] using hab) (pySortDesc_sorted docs)
  refine ⟨hsorted, ?_, ?_⟩
  · exact (pySortDesc_perm docs).map stringifyId
  · refine hsorted.imp ?_
    intro a b hab hnone
    simp only [sortKey, hnone, Option.getD_none] at hab ⊢
    omega

theorem C4_list_sorted_desc_witness :
    List.Pairwise (fun a b => sortKey b ≤ sortKey a)
      [⟨some (IdVal.strv "2"), "B", "m2", some 5⟩, ⟨some (IdVal.strv "1"), "A", "m1", some 2⟩,
        ⟨none, "C", "m3", none⟩] ∧
    List.Perm
      [⟨some (IdVal.strv "2"), "B", "m2", some 5⟩, ⟨some (IdVal.strv "1"), "A", "m1", some 2⟩,
        ⟨none, "C", "m3", none⟩]
      ([⟨some (IdVal.objId 1), "A", "m1", some 2⟩, ⟨some (IdVal.objId 2), "B", "m2", some 5⟩,
        ⟨none, "C", "m3", none⟩].map stringifyId) ∧
    List.Pairwise (fun a b => a.created_at = none → sortKey b = 0)
      [⟨some (IdVal.strv "2"), "B", "m2", some 5⟩, ⟨some (IdVal.strv "1"), "A", "m1", some 2⟩,
        ⟨none, "C", "m3", none⟩] :=
  C4_list_sorted_desc
    [⟨some (IdVal.objId 1), "A", "m1", some 2⟩, ⟨some (IdVal.objId 2), "B", "m2", some 5⟩,
      ⟨none, "C", "m3", none⟩]
    [⟨some (IdVal.strv "2"), "B", "m2", some 5⟩, ⟨some (IdVal.strv "1"), "A", "m1", some 2⟩,
      ⟨none, "C", "m3", none⟩]
    (by decide)

/-- C5: GET /test is a total function of the probed world (every failure at
any probing step is absorbed into a descriptive status string rather than
raised); its `connection_status` is `Connected` exactly when the import
succeeded with a non-null handle, its `collections` holds at most ten
names, and a failed import or a failing probe yields the corresponding
descriptive status string. -/
theorem C5_test_probe_degrades (env : TestEnv) :
    ((test_database env).connection_status = "Connected" ↔
      ∃ db, env.importResult = ImportOutcome.imported (some db)) ∧
    (test_database env).collections.length ≤ 10 ∧
    (env.importResult = ImportOutcome.importFailed →
      (test_database env).database =
        "❌ Database module not found (run enable-database first)") ∧
    (∀ e, env.importResult = ImportOutcome.otherFailed e →
      (test_database env).database = "❌ Error: " ++ strTake e 50) := by
  obtain ⟨ir, us, ns⟩ := env
  refine ⟨?_, ?_, ?_, ?_⟩
  · rw [test_database_connection]
    cases ir with
    | importFailed =>
      constructor
      · intro hc
        exact absurd (show ("Not Connected" : String) = "Connected" from hc) (by decide)
      · rintro ⟨db, hdb⟩
        simp at hdb
    | otherFailed e =>
      constructor
      · intro hc
        exact absurd (show ("Not Connected" : String) = "Connected" from hc) (by decide)
      · rintro ⟨db, hdb⟩
        simp at hdb
    | imported o =>
      cases o with
      | none =>
        constructor
        · intro hc
          exact absurd (show ("Not Connected" : String) = "Connected" from hc) (by decide)
        · rintro ⟨db, hdb⟩
          simp at hdb
      | some db =>
        constructor
        · intro _
          exact ⟨db, rfl⟩
        · intro _
          rfl
  · rw [test_database_collections]
    cases ir with
    | importFailed => simp
    | otherFailed e => simp
    | imported o =>
      cases o with
      | none => simp
      | some db =>
        obtain ⟨nm, cols⟩ := db
        cases cols with
        | ok c =>
          simp only [List.length_take]
          omega
        | error e => simp
  · intro hif
    have : ir = ImportOutcome.importFailed := hif
    subst this
    rfl
  · intro e he
    have : ir = ImportOutcome.otherFailed e := he
    subst this
    rfl

/-- C7: every entry of the GET /guestbook response carries its identifier
serialized as a string: the response is the sorted documents with
`stringifyId` applied, `stringifyId` sends a present `_id` to the string
holding its text representation, and so every `_id` present in the
response is a string value. -/
theorem C7_ids_are_strings (docs out : List Doc)
    (h : list_guestbook (Except.ok docs) = Except.ok out) :
    out = (pySortDesc docs).map stringifyId ∧
    (∀ d, (stringifyId d)._id = d._id.map (fun v => IdVal.strv (idStr v))) ∧
    (∀ d ∈ out, ∀ v, d._id = some v → ∃ s, v = IdVal.strv s) := by
  have hout : out = (pySortDesc docs).map stringifyId := by
    simp only [list_guestbook] at h
    injection h with h'
    exact h'.symm
  subst hout
  refine ⟨rfl, fun d => rfl, ?_⟩
  intro d hd v hv
  rw [List.mem_map] at hd
  obtain ⟨d0, _, hdd⟩ := hd
  subst hdd
  cases hid : d0._id with
  | none =>
    rw [show (stringifyId d0)._id = d0._id.map (fun v => IdVal.strv (idStr v)) from rfl,
      hid] at hv
    simp at hv
  | some w =>
    rw [show (stringifyId d0)._id = d0._id.map (fun v => IdVal.strv (idStr v)) from rfl,
      hid] at hv
    exact ⟨idStr w, (Option.some.inj hv).symm⟩

theorem C7_ids_are_strings_witness :
    ([⟨some (IdVal.strv "42"), "N", "M", some 1⟩] : List Doc) =
      (pySortDesc [⟨some (IdVal.objId 42), "N", "M", some 1⟩]).map stringifyId ∧
    (∀ d, (stringifyId d)._id = d._id.map (fun v => IdVal.strv (idStr v))) ∧
    (∀ d ∈ ([⟨some (IdVal.strv "42"), "N", "M", some 1⟩] : List Doc), ∀ v,
      d._id = some v → ∃ s, v = IdVal.strv s) :=
  C7_ids_are_strings [⟨some (IdVal.objId 42), "N", "M", some 1⟩]
    [⟨some (IdVal.strv "42"), "N", "M", some 1⟩] (by decide)
